import Mathlib

/-
Verification of the game-state machine and move-resolution engine in
src/server.js: a two-player, turn-based game on a 5x5 grid.

The embedding below translates the mutable JavaScript state
(gameState, moveHistory) into explicit state passing.  The board is a
total function from coordinates to optional cell labels: JavaScript
arrays auto-extend on out-of-range writes (relevant to setup with more
than five pieces) and every read performed by the engine is
bounds-checked first, so a function board is observationally faithful.
Outbound websocket sends and broadcasts are collected in an output
list.  A JavaScript code path that throws (dereferencing undefined) is
modelled as the Option value none.
-/

namespace ChessLike

inductive Player where
  | A
  | B
deriving DecidableEq, Repr

def playerChar : Player → Char
  | .A => 'A'
  | .B => 'B'

def playerStr : Player → String
  | .A => "A"
  | .B => "B"

def otherPlayer : Player → Player
  | .A => .B
  | .B => .A

/-- A roster entry, as stored in gameState.players[p].pieces. -/
structure Piece where
  name : String
  row : Nat
  col : Nat
deriving DecidableEq, Repr

/-- Board cells hold the string label "A-name" or "B-name", or null. -/
abbrev Board := Nat → Nat → Option String

def emptyBoard : Board := fun _ _ => none

def setCell (b : Board) (r c : Nat) (v : Option String) : Board :=
  fun r' c' => if r' = r ∧ c' = c then v else b r' c'

/-- The label written on the board for a piece: owner prefix, dash, name. -/
def pieceLabel (player : Player) (nm : String) : String :=
  playerStr player ++ "-" ++ nm

structure GameState where
  board : Board
  piecesA : List Piece
  piecesB : List Piece
  currentPlayer : Player

/-- gameState.players[player].pieces -/
def GameState.pieces (gs : GameState) : Player → List Piece
  | .A => gs.piecesA
  | .B => gs.piecesB

def setPieces (gs : GameState) (player : Player) (ps : List Piece) : GameState :=
  match player with
  | .A => { gs with piecesA := ps }
  | .B => { gs with piecesB := ps }

def initGameState : GameState :=
  { board := emptyBoard, piecesA := [], piecesB := [], currentPlayer := Player.A }

/-- The pair of module-level mutables (gameState, moveHistory). -/
structure Srv where
  game : GameState
  moveHistory : List String

/-- initializeGame(): fresh board, empty rosters, player A, empty log. -/
def initializeGame : Srv := { game := initGameState, moveHistory := [] }

/-- Messages sent to clients (the init message on connect is omitted:
no claim concerns it). -/
inductive OutMsg where
  | update (gs : GameState)
  | moveHistoryMsg (entries : List String)
  | errorMsg (message : String)
  | endMsg (winner : Player)

/-- JavaScript s[0]: the first character of a string, if any. -/
def firstChar (s : String) : Option Char :=
  s.data.head?

/-- JavaScript s.split(sep) on a character separator, structurally
recursive so that it evaluates in the kernel. -/
def charSplitOn (sep : Char) : List Char → List (List Char)
  | [] => [[]]
  | c :: rest =>
    let r := charSplitOn sep rest
    if c = sep then [] :: r
    else
      match r with
      | [] => [[c]]
      | h :: t => (c :: h) :: t

/-- character.split('-')[1]: none when the label has no dash (JavaScript
yields undefined there). -/
def nameOf (character : String) : Option String :=
  ((charSplitOn '-' character.data).map (fun cs => String.mk cs)).get? 1

/-- character.endsWith('1'). -/
def endsWith1 (s : String) : Bool :=
  match s.data.getLast? with
  | some c => c = '1'
  | none => false

/-- capturePiece(position): if the cell is occupied, delete every roster
entry of the label's owner whose (row, col) equals the position, then
clear the cell.  Every stored label starts with the owner prefix, so the
fall-through branch (JavaScript would throw on players[undefined]) is
unreachable and modelled as a no-op. -/
def capturePiece (gs : GameState) (x y : Nat) : GameState :=
  match gs.board x y with
  | none => gs
  | some character =>
    let cleared := setCell gs.board x y none
    match firstChar character with
    | some 'A' =>
      { gs with
        piecesA := gs.piecesA.filter (fun p => p.row != x || p.col != y)
        board := cleared }
    | some 'B' =>
      { gs with
        piecesB := gs.piecesB.filter (fun p => p.row != x || p.col != y)
        board := cleared }
    | _ => gs

/-- Board access with the Int coordinates used during move resolution.
Every call site is dominated by the source's own bounds checks. -/
def getCellZ (b : Board) (x y : Int) : Option String :=
  if 0 ≤ x ∧ 0 ≤ y then b x.toNat y.toNat else none

def setCellZ (b : Board) (x y : Int) (v : Option String) : Board :=
  if 0 ≤ x ∧ 0 ≤ y then setCell b x.toNat y.toNat v else b

def capturePieceZ (gs : GameState) (x y : Int) : GameState :=
  if 0 ≤ x ∧ 0 ≤ y then capturePiece gs x.toNat y.toNat else gs

/-- board[x][y] && board[x][y][0] === gameState.currentPlayer -/
def isFriendlyCell (gs : GameState) (x y : Int) : Bool :=
  match getCellZ gs.board x y with
  | some s => firstChar s == some (playerChar gs.currentPlayer)
  | none => false

/-- nx < 0 || nx >= 5 || ny < 0 || ny >= 5 -/
def offBoard (x y : Int) : Bool :=
  x < 0 || 5 ≤ x || y < 0 || 5 ≤ y

/-- One iteration of the hero capture loop at path cell (nx, ny):
an enemy occupant is captured. -/
def heroCaptureAt (gs : GameState) (nx ny : Int) : GameState :=
  match getCellZ gs.board nx ny with
  | some s =>
    if firstChar s != some (playerChar gs.currentPlayer) then capturePieceZ gs nx ny
    else gs
  | none => gs

/-- movePawn(from, to): reject a friendly destination; otherwise copy the
mover's label to the destination cell, clear the origin, then run
capturePiece on the destination.  Note the source calls capturePiece
after the mover has been written to the destination. -/
def movePawn (gs : GameState) (fromPos toPos : Int × Int) : Bool × GameState :=
  if isFriendlyCell gs toPos.1 toPos.2 then (false, gs)
  else
    let b1 := setCellZ gs.board toPos.1 toPos.2 (getCellZ gs.board fromPos.1 fromPos.2)
    let b2 := setCellZ b1 fromPos.1 fromPos.2 none
    let gs1 := { gs with board := b2 }
    (true, capturePieceZ gs1 toPos.1 toPos.2)

/-- moveHero1(from, to): reject a friendly destination; walk two steps of
the sign-normalised direction, bounds-checking each and capturing any
enemy occupant; finally relocate the mover to `toPos`.  A failed bounds
check at step two returns false but keeps the step-one capture. -/
def moveHero1 (gs : GameState) (fromPos toPos : Int × Int) : Bool × GameState :=
  if isFriendlyCell gs toPos.1 toPos.2 then (false, gs)
  else
    let dx := (toPos.1 - fromPos.1).sign
    let dy := (toPos.2 - fromPos.2).sign
    let n1x := fromPos.1 + dx
    let n1y := fromPos.2 + dy
    if offBoard n1x n1y then (false, gs)
    else
      let gs1 := heroCaptureAt gs n1x n1y
      let n2x := fromPos.1 + 2 * dx
      let n2y := fromPos.2 + 2 * dy
      if offBoard n2x n2y then (false, gs1)
      else
        let gs2 := heroCaptureAt gs1 n2x n2y
        let b1 := setCellZ gs2.board toPos.1 toPos.2 (getCellZ gs2.board fromPos.1 fromPos.2)
        let b2 := setCellZ b1 fromPos.1 fromPos.2 none
        (true, { gs2 with board := b2 })

/-- moveHero2(from, to): the source duplicates the moveHero1 body. -/
def moveHero2 (gs : GameState) (fromPos toPos : Int × Int) : Bool × GameState :=
  if isFriendlyCell gs toPos.1 toPos.2 then (false, gs)
  else
    let dx := (toPos.1 - fromPos.1).sign
    let dy := (toPos.2 - fromPos.2).sign
    let n1x := fromPos.1 + dx
    let n1y := fromPos.2 + dy
    if offBoard n1x n1y then (false, gs)
    else
      let gs1 := heroCaptureAt gs n1x n1y
      let n2x := fromPos.1 + 2 * dx
      let n2y := fromPos.2 + 2 * dy
      if offBoard n2x n2y then (false, gs1)
      else
        let gs2 := heroCaptureAt gs1 n2x n2y
        let b1 := setCellZ gs2.board toPos.1 toPos.2 (getCellZ gs2.board fromPos.1 fromPos.2)
        let b2 := setCellZ b1 fromPos.1 fromPos.2 none
        (true, { gs2 with board := b2 })

/-- The directional-offset table, mirrored along the row axis per player. -/
def directions (player : Player) (move : String) : Option (Int × Int) :=
  if move = "L" then some (0, -1)
  else if move = "R" then some (0, 1)
  else if move = "F" then some (if player = Player.A then (1, 0) else (-1, 0))
  else if move = "B" then some (if player = Player.A then (-1, 0) else (1, 0))
  else if move = "FL" then some (if player = Player.A then (1, -1) else (-1, 1))
  else if move = "FR" then some (if player = Player.A then (1, 1) else (-1, -1))
  else if move = "BL" then some (if player = Player.A then (-1, -1) else (1, 1))
  else if move = "BR" then some (if player = Player.A then (-1, 1) else (1, -1))
  else none

/-- The double scan loop locating the cell whose label equals the raw
character string; a later match overwrites an earlier one. -/
def findFrom (b : Board) (character : String) : Option (Nat × Nat) :=
  (List.range 5).foldl
    (fun acc x =>
      (List.range 5).foldl
        (fun acc2 y => if b x y = some character then some (x, y) else acc2)
        acc)
    none

/-- Lines 168-180 of processMove: on success append the log entry and
broadcast the move history; on failure leave the log alone. -/
def finishMove (s : Srv) (player : Player) (nm move : String) (mr : Bool × GameState) :
    Bool × Srv × List OutMsg :=
  if mr.1 then
    let moveDesc := playerStr player ++ "-" ++ nm ++ ": " ++ move
    let hist := s.moveHistory ++ [moveDesc]
    (true, { game := mr.2, moveHistory := hist }, [OutMsg.moveHistoryMsg hist])
  else
    (false, { game := mr.2, moveHistory := s.moveHistory }, [])

/-- processMove(player, character, move).  The result is none where the
JavaScript throws: an unknown move code (directions[move] is undefined
and indexing it throws) or a dash-free character string reaching the
dispatch switch (split('-')[1] is undefined and indexing it throws). -/
def processMove (s : Srv) (player : Player) (character move : String) :
    Option (Bool × Srv × List OutMsg) :=
  match findFrom s.game.board character with
  | none => some (false, s, [])
  | some fp =>
    match directions player move with
    | none => none
    | some d =>
      let fx : Int := fp.1
      let fy : Int := fp.2
      let tx := fx + d.1
      let ty := fy + d.2
      if tx < 0 ∨ 5 ≤ tx ∨ ty < 0 ∨ 5 ≤ ty then some (false, s, [])
      else
        match nameOf character with
        | none => none
        | some nm =>
          match nm.data with
          | [] => some (false, s, [])
          | c :: _ =>
            if c = 'P' then
              some (finishMove s player nm move (movePawn s.game (fx, fy) (tx, ty)))
            else if c = 'H' then
              some (finishMove s player nm move
                (if endsWith1 character then moveHero1 s.game (fx, fy) (tx, ty)
                 else moveHero2 s.game (fx, fy) (tx, ty)))
            else some (false, s, [])

/-- findPiece(player, character): look the name part of the label up in
the given player's roster. -/
def findPiece (gs : GameState) (player : Player) (character : String) : Option Piece :=
  (gs.pieces player).find? (fun p => some p.name == nameOf character)

/-- handleMove(data, ws). -/
def handleMove (s : Srv) (character move : String) : Option (Srv × List OutMsg) :=
  let player := s.game.currentPlayer
  match findPiece s.game player character with
  | none => some (s, [OutMsg.errorMsg "Invalid character."])
  | some _ =>
    match processMove s player character move with
    | none => none
    | some (validMove, s1, outs) =>
      if !validMove then some (s1, outs ++ [OutMsg.errorMsg "Invalid move."])
      else
        if s1.game.piecesA.isEmpty || s1.game.piecesB.isEmpty then
          let winner := if s1.game.piecesA.isEmpty then Player.B else Player.A
          some (initializeGame, outs ++ [OutMsg.endMsg winner])
        else
          let gs2 := { s1.game with
            currentPlayer := if player = Player.A then Player.B else Player.A }
          some ({ game := gs2, moveHistory := s1.moveHistory },
            outs ++ [OutMsg.update gs2, OutMsg.moveHistoryMsg s1.moveHistory])

/-- player === 'A' ? 0 : 4, the acting player's home row. -/
def homeRow (player : Player) : Nat :=
  if player = Player.A then 0 else 4

/-- The setupPositions.map callback: write each piece's label at
(homeRow, index) on the board and build the roster entry list. -/
def placePieces (player : Player) (b : Board) (idx : Nat) :
    List String → Board × List Piece
  | [] => (b, [])
  | piece :: rest =>
    let b1 := setCell b (homeRow player) idx (some (pieceLabel player piece))
    let r := placePieces player b1 (idx + 1) rest
    (r.1, { name := piece, row := homeRow player, col := idx } :: r.2)

/-- handleSetup(data, ws). -/
def handleSetup (s : Srv) (setupPositions : List String) : Srv × List OutMsg :=
  let player := s.game.currentPlayer
  if (s.game.pieces player).length > 0 then
    (s, [OutMsg.errorMsg "Setup already completed."])
  else
    let r := placePieces player s.game.board 0 setupPositions
    let gs1 := setPieces { s.game with board := r.1 } player r.2
    let gs2 := { gs1 with
      currentPlayer := if player = Player.A then Player.B else Player.A }
    let gs3 :=
      if gs2.piecesA.length > 0 ∧ gs2.piecesB.length > 0 then
        { gs2 with currentPlayer := Player.A }
      else gs2
    ({ game := gs3, moveHistory := s.moveHistory }, [OutMsg.update gs3])

/-- resetGame(): reinitialize and broadcast the fresh state. -/
def resetGame : Srv × List OutMsg :=
  (initializeGame, [OutMsg.update initGameState])

/-- The three inbound command types dispatched by the message handler. -/
inductive Cmd where
  | setup (setupPositions : List String)
  | move (character mv : String)
  | reset

def stepCmd (s : Srv) : Cmd → Option (Srv × List OutMsg)
  | .setup ps => some (handleSetup s ps)
  | .move ch mv => handleMove s ch mv
  | .reset => some resetGame

/-- States reachable from the initial state by accepted or rejected
commands (crashing commands produce no successor state). -/
inductive Reachable : Srv → Prop
  | init : Reachable initializeGame
  | step {s : Srv} {c : Cmd} {p : Srv × List OutMsg} :
      Reachable s → stepCmd s c = some p → Reachable p.1

/-- A three-command demonstration run: player A sets up one pawn,
player B sets up one pawn, then A moves its pawn forward. -/
def demoSetupA : Srv × List OutMsg :=
  handleSetup initializeGame ["P1"]

def demoSetupB : Srv × List OutMsg :=
  handleSetup demoSetupA.1 ["P1"]

def demoMove : Option (Srv × List OutMsg) :=
  handleMove demoSetupB.1 "A-P1" "F"

def demoAfterMove : Srv :=
  (demoMove.getD (initializeGame, [])).1

/-- Short-range capture scenario: A's pawn at (1,1), B's piece at (2,1). -/
def pawnCaptureState : Srv :=
  { game :=
      { board := setCell (setCell emptyBoard 1 1 (some "A-P1")) 2 1 (some "B-P2")
        piecesA := [{ name := "P1", row := 1, col := 1 }]
        piecesB := [{ name := "P2", row := 2, col := 1 }]
        currentPlayer := Player.A }
    moveHistory := [] }

/-- Long-range path capture scenario from the spec: A's hero at (0,2),
B's piece at (1,2), (2,2) empty; B keeps a second piece at (4,4). -/
def heroPathState : Srv :=
  { game :=
      { board :=
          setCell (setCell (setCell emptyBoard 0 2 (some "A-H1")) 1 2 (some "B-P1"))
            4 4 (some "B-P9")
        piecesA := [{ name := "H1", row := 0, col := 2 }]
        piecesB := [{ name := "P1", row := 1, col := 2 }, { name := "P9", row := 4, col := 4 }]
        currentPlayer := Player.A }
    moveHistory := [] }

/-- Partial-path rejection scenario: A's hero at (3,2), B's piece at
(4,2); a forward move projects step two to row 5, off the board. -/
def heroEdgeState : Srv :=
  { game :=
      { board := setCell (setCell emptyBoard 3 2 (some "A-H1")) 4 2 (some "B-P1")
        piecesA := [{ name := "H1", row := 3, col := 2 }]
        piecesB := [{ name := "P1", row := 4, col := 2 }]
        currentPlayer := Player.A }
    moveHistory := [] }

/-- Win scenario: A's hero at (0,0), B's only piece at (1,0). -/
def winState : Srv :=
  { game :=
      { board := setCell (setCell emptyBoard 0 0 (some "A-H1")) 1 0 (some "B-P1")
        piecesA := [{ name := "H1", row := 0, col := 0 }]
        piecesB := [{ name := "P1", row := 1, col := 0 }]
        currentPlayer := Player.A }
    moveHistory := [] }

/-- Opponent-label scenario: both players own a piece named P1; it is
A's turn and A submits the label of B's piece. -/
def opponentLabelState : Srv :=
  { game :=
      { board := setCell (setCell emptyBoard 0 0 (some "A-P1")) 4 0 (some "B-P1")
        piecesA := [{ name := "P1", row := 0, col := 0 }]
        piecesB := [{ name := "P1", row := 4, col := 0 }]
        currentPlayer := Player.A }
    moveHistory := [] }

/-- The exactly-one-roster-entry condition for an occupied cell. -/
def cellMirrors (gs : GameState) (player : Player) (nm : String) (r c : Nat) : Prop :=
  (∃! p : Piece, p ∈ gs.pieces player ∧ p.name = nm) ∧
  (∀ p ∈ gs.pieces player, p.name = nm → p.row = r ∧ p.col = c)

/-- The board/roster mirror invariant claimed by the spec: roster
entries point at cells carrying their owner's label, and occupied cells
resolve to exactly one roster entry at the same coordinates. -/
def boardRosterMirror (gs : GameState) : Prop :=
  (∀ player : Player, ∀ p ∈ gs.pieces player,
      gs.board p.row p.col = some (pieceLabel player p.name)) ∧
  (∀ r c : Nat, ∀ nm : String, ∀ player : Player, r < 5 → c < 5 →
      gs.board r c = some (pieceLabel player nm) → cellMirrors gs player nm r c)

/-- The spec's turn-ownership invariant, stated over all commands: the
current player changes only on a setup or a move command. -/
def currentPlayerOnlyChangesOnSetupOrMove : Prop :=
  ∀ (s : Srv) (c : Cmd) (s' : Srv) (outs : List OutMsg),
    stepCmd s c = some (s', outs) →
    s'.game.currentPlayer = s.game.currentPlayer ∨
    (∃ ps, c = Cmd.setup ps) ∨ (∃ ch mv, c = Cmd.move ch mv)

def pawnCaptureResult : Srv × List OutMsg :=
  (handleMove pawnCaptureState "A-P1" "F").getD (initializeGame, [])

def heroPathResult : Srv × List OutMsg :=
  (handleMove heroPathState "A-H1" "F").getD (initializeGame, [])

def heroEdgeResult : Srv × List OutMsg :=
  (handleMove heroEdgeState "A-H1" "F").getD (initializeGame, [])

def opponentLabelResult : Srv × List OutMsg :=
  (handleMove opponentLabelState "B-P1" "B").getD (initializeGame, [])

/-- C1: the board/roster mirror invariant fails on a reachable state.
After A sets up one pawn, B sets up one pawn, and A's accepted forward
pawn move, A's roster still records P1 at (0,0) while both (0,0) and the
move's destination (1,0) are empty: movePawn never updates the roster
coordinates and its trailing capturePiece call erases the mover from the
board. -/
theorem mirror_invariant_fails :
    Reachable demoAfterMove ∧ ¬ boardRosterMirror demoAfterMove.game := by
  constructor
  · have h1 : Reachable demoSetupA.1 :=
      @Reachable.step initializeGame (Cmd.setup ["P1"]) demoSetupA Reachable.init rfl
    have h2 : Reachable demoSetupB.1 :=
      @Reachable.step demoSetupA.1 (Cmd.setup ["P1"]) demoSetupB h1 rfl
    exact @Reachable.step demoSetupB.1 (Cmd.move "A-P1" "F")
      (demoMove.getD (initializeGame, [])) h2 rfl
  · intro h
    have hm : ({ name := "P1", row := 0, col := 0 } : Piece)
        ∈ demoAfterMove.game.pieces Player.A := by decide
    have hcell := h.1 Player.A { name := "P1", row := 0, col := 0 } hm
    exact absurd hcell (by decide)

/-- C2: an accepted short-range capture move leaves the destination cell
empty (not occupied by the mover) and leaves the captured enemy in its
owner's roster.  A's pawn at (1,1) moves F onto B's piece at (2,1): the
move is accepted (logged, turn flipped), yet afterwards both (1,1) and
(2,1) are empty and both rosters are exactly as before. -/
theorem pawn_capture_erases_mover :
    (handleMove pawnCaptureState "A-P1" "F").isSome = true ∧
    pawnCaptureResult.1.moveHistory = ["A-P1: F"] ∧
    pawnCaptureResult.1.game.currentPlayer = Player.B ∧
    pawnCaptureResult.1.game.board 2 1 = none ∧
    pawnCaptureResult.1.game.board 1 1 = none ∧
    pawnCaptureResult.1.game.piecesB = [{ name := "P2", row := 2, col := 1 }] ∧
    pawnCaptureResult.1.game.piecesA = [{ name := "P1", row := 1, col := 1 }] := by
  decide

/-- C3: an accepted long-range move relocates the mover to the one-step
cell, not the final cell of the two-step projection.  In the spec's own
scenario (hero at (0,2), enemy at (1,2), (2,2) empty, move F) the enemy
on the path is captured as claimed, but the hero ends at (1,2) while
(2,2) stays empty. -/
theorem hero_lands_one_step :
    (handleMove heroPathState "A-H1" "F").isSome = true ∧
    heroPathResult.1.game.board 1 2 = some "A-H1" ∧
    heroPathResult.1.game.board 2 2 = none ∧
    heroPathResult.1.game.board 0 2 = none ∧
    heroPathResult.1.game.piecesB = [{ name := "P9", row := 4, col := 4 }] ∧
    heroPathResult.1.moveHistory = ["A-H1: F"] := by
  decide

/-- C4: a rejected move can mutate state.  A's hero at (3,2) moving F
has its two-step projection at row 5, so the move is rejected with
"Invalid move." — but the step-one capture has already run: B's piece at
(4,2) is gone from the board and from B's roster, while the hero stays
at (3,2). -/
theorem rejected_hero_move_mutates_state :
    heroEdgeResult.2 = [OutMsg.errorMsg "Invalid move."] ∧
    heroEdgeResult.1.game.piecesB = [] ∧
    heroEdgeState.game.piecesB = [{ name := "P1", row := 4, col := 2 }] ∧
    heroEdgeResult.1.game.board 4 2 = none ∧
    heroEdgeState.game.board 4 2 = some "B-P1" ∧
    heroEdgeResult.1.game.board 3 2 = some "A-H1" := by
  refine ⟨rfl, by decide, by decide, by decide, by decide, by decide⟩

theorem setCell_at (b : Board) (r c : Nat) (v : Option String) : setCell b r c v r c = v := by
  simp [setCell]

theorem setCell_away (b : Board) (r c : Nat) (v : Option String) (r' c' : Nat)
    (h : ¬(r' = r ∧ c' = c)) : setCell b r c v r' c' = b r' c' := by
  simp [setCell, h]

/-- Cells in columns below the starting index are untouched by placement. -/
theorem placePieces_low (player : Player) :
    ∀ (ps : List String) (b : Board) (idx r c : Nat), c < idx →
      (placePieces player b idx ps).1 r c = b r c := by
  intro ps
  induction ps with
  | nil => intro b idx r c _; rfl
  | cons hd tl ih =>
    intro b idx r c hc
    show (placePieces player
        (setCell b (homeRow player) idx (some (pieceLabel player hd))) (idx + 1) tl).1 r c
      = b r c
    rw [ih _ (idx + 1) r c (Nat.lt_succ_of_lt hc)]
    exact setCell_away _ _ _ _ _ _ (fun hh => absurd hh.2 (Nat.ne_of_lt hc))

/-- Placement writes the i-th submitted piece's label at column idx + i
of the acting player's home row. -/
theorem placePieces_at (player : Player) :
    ∀ (ps : List String) (b : Board) (idx i : Nat) (h : i < ps.length),
      (placePieces player b idx ps).1 (homeRow player) (idx + i)
        = some (pieceLabel player (ps.get ⟨i, h⟩)) := by
  intro ps
  induction ps with
  | nil => intro b idx i h; exact absurd h (Nat.not_lt_zero i)
  | cons hd tl ih =>
    intro b idx i h
    cases i with
    | zero =>
      show (placePieces player
          (setCell b (homeRow player) idx (some (pieceLabel player hd))) (idx + 1) tl).1
          (homeRow player) idx
        = some (pieceLabel player hd)
      rw [placePieces_low player tl _ (idx + 1) (homeRow player) idx (Nat.lt_succ_self idx)]
      exact setCell_at _ _ _ _
    | succ j =>
      have h' : j < tl.length := Nat.lt_of_succ_lt_succ h
      have hj := ih (setCell b (homeRow player) idx (some (pieceLabel player hd)))
        (idx + 1) j h'
      show (placePieces player
          (setCell b (homeRow player) idx (some (pieceLabel player hd))) (idx + 1) tl).1
          (homeRow player) (idx + (j + 1))
        = some (pieceLabel player ((hd :: tl).get ⟨j + 1, h⟩))
      have harith : idx + (j + 1) = (idx + 1) + j := by omega
      rw [harith]
      exact hj

/-- An accepted setup leaves the board exactly as placement produces it. -/
theorem handleSetup_board (s : Srv) (ps : List String)
    (hempty : s.game.pieces s.game.currentPlayer = []) :
    (handleSetup s ps).1.game.board
      = (placePieces s.game.currentPlayer s.game.board 0 ps).1 := by
  obtain ⟨⟨bd, pa, pb, cur⟩, hist⟩ := s
  cases cur with
  | A =>
    simp only [GameState.pieces] at hempty
    subst hempty
    simp only [handleSetup, GameState.pieces, setPieces, List.length_nil, gt_iff_lt,
      Nat.lt_irrefl, if_false]
    split <;> rfl
  | B =>
    simp only [GameState.pieces] at hempty
    subst hempty
    simp only [handleSetup, GameState.pieces, setPieces, List.length_nil, gt_iff_lt,
      Nat.lt_irrefl, if_false]
    split <;> rfl

/-- An accepted setup flips the turn, forcing it back to A when both
rosters are populated afterwards. -/
theorem handleSetup_currentPlayer (s : Srv) (ps : List String)
    (hempty : s.game.pieces s.game.currentPlayer = []) :
    (handleSetup s ps).1.game.currentPlayer =
      (if (handleSetup s ps).1.game.piecesA ≠ [] ∧ (handleSetup s ps).1.game.piecesB ≠ []
       then Player.A else otherPlayer s.game.currentPlayer) := by
  obtain ⟨⟨bd, pa, pb, cur⟩, hist⟩ := s
  cases cur with
  | A =>
    simp only [GameState.pieces] at hempty
    subst hempty
    simp only [handleSetup, GameState.pieces, setPieces, List.length_nil, gt_iff_lt,
      Nat.lt_irrefl, if_false, otherPlayer]
    by_cases h1 : (placePieces Player.A bd 0 ps).2 = [] <;>
      by_cases h2 : pb = [] <;>
        simp [h1, h2, List.length_pos]
  | B =>
    simp only [GameState.pieces] at hempty
    subst hempty
    simp only [handleSetup, GameState.pieces, setPieces, List.length_nil, gt_iff_lt,
      Nat.lt_irrefl, if_false, otherPlayer]
    by_cases h1 : (placePieces Player.B bd 0 ps).2 = [] <;>
      by_cases h2 : pa = [] <;>
        simp [h1, h2, List.length_pos]

/-- An accepted setup never answers with an error message. -/
theorem handleSetup_no_error (t : Srv) (ps : List String)
    (hempty : t.game.pieces t.game.currentPlayer = []) :
    ∀ m : String, OutMsg.errorMsg m ∉ (handleSetup t ps).2 := by
  obtain ⟨⟨bd, pa, pb, cur⟩, hist⟩ := t
  cases cur with
  | A =>
    simp only [GameState.pieces] at hempty
    subst hempty
    intro m hm
    simp only [handleSetup, GameState.pieces, List.length_nil, gt_iff_lt, Nat.lt_irrefl,
      if_false] at hm
    exact OutMsg.noConfusion (List.mem_singleton.mp hm)
  | B =>
    simp only [GameState.pieces] at hempty
    subst hempty
    intro m hm
    simp only [handleSetup, GameState.pieces, List.length_nil, gt_iff_lt, Nat.lt_irrefl,
      if_false] at hm
    exact OutMsg.noConfusion (List.mem_singleton.mp hm)

/-- C7: an accepted setup by the current player places the i-th
submitted piece at (home row, column i) for every index i of the
submission, then hands the turn to the other player, except that it is
forced back to A when both rosters are populated afterwards. -/
theorem setup_places_in_order (s : Srv) (ps : List String)
    (hempty : s.game.pieces s.game.currentPlayer = []) :
    (∀ i (h : i < ps.length),
        (handleSetup s ps).1.game.board (homeRow s.game.currentPlayer) i
          = some (pieceLabel s.game.currentPlayer (ps.get ⟨i, h⟩))) ∧
    (handleSetup s ps).1.game.currentPlayer =
      (if (handleSetup s ps).1.game.piecesA ≠ [] ∧ (handleSetup s ps).1.game.piecesB ≠ []
       then Player.A else otherPlayer s.game.currentPlayer) := by
  refine ⟨fun i h => ?_, handleSetup_currentPlayer s ps hempty⟩
  rw [handleSetup_board s ps hempty]
  have hp := placePieces_at s.game.currentPlayer ps s.game.board 0 i h
  simpa using hp

/-- Witness for C7: player A submitting three pieces gets A-H1 at
(0,2), and the turn passes to B. -/
theorem setup_places_in_order_witness :
    (handleSetup initializeGame ["P1", "P2", "H1"]).1.game.board 0 2 = some "A-H1" ∧
    (handleSetup initializeGame ["P1", "P2", "H1"]).1.game.currentPlayer = Player.B := by
  have h := setup_places_in_order initializeGame ["P1", "P2", "H1"] rfl
  constructor
  · exact h.1 2 (by decide)
  · rw [h.2]
    decide

/-- C10: the setup handler enforces no upper bound on the roster: every
index of the submitted sequence is written at its own column, so a
sequence longer than five writes board cells at column 5 and beyond,
outside the declared 5x5 grid. -/
theorem setup_writes_beyond_grid (s : Srv) (ps : List String)
    (hempty : s.game.pieces s.game.currentPlayer = [])
    (hlen : 5 < ps.length) :
    (handleSetup s ps).1.game.board (homeRow s.game.currentPlayer) 5
      = some (pieceLabel s.game.currentPlayer (ps.get ⟨5, hlen⟩)) ∧
    (∀ i (h : i < ps.length),
        (handleSetup s ps).1.game.board (homeRow s.game.currentPlayer) i
          = some (pieceLabel s.game.currentPlayer (ps.get ⟨i, h⟩))) := by
  have hall : ∀ i (h : i < ps.length),
      (handleSetup s ps).1.game.board (homeRow s.game.currentPlayer) i
        = some (pieceLabel s.game.currentPlayer (ps.get ⟨i, h⟩)) := by
    intro i h
    rw [handleSetup_board s ps hempty]
    have hp := placePieces_at s.game.currentPlayer ps s.game.board 0 i h
    simpa using hp
  exact ⟨hall 5 hlen, hall⟩

/-- Witness for C10: six pieces submitted by A put A-P6 at (0,5),
column index 5, outside the 5x5 grid. -/
theorem setup_writes_beyond_grid_witness :
    (handleSetup initializeGame ["P1", "P2", "P3", "P4", "P5", "P6"]).1.game.board 0 5
      = some "A-P6" := by
  have h := setup_writes_beyond_grid initializeGame ["P1", "P2", "P3", "P4", "P5", "P6"]
    rfl (by decide)
  exact h.1

/-- C9: an empty setup submission by a player with an empty roster is
accepted: board and rosters are unchanged, the turn flips to the other
player, no error is produced, and the repeated-setup guard will not fire
on a later setup while that roster is still empty. -/
theorem empty_setup_accepted (s : Srv)
    (hempty : s.game.pieces s.game.currentPlayer = []) :
    (handleSetup s []).1.game.board = s.game.board ∧
    (handleSetup s []).1.game.piecesA = s.game.piecesA ∧
    (handleSetup s []).1.game.piecesB = s.game.piecesB ∧
    (handleSetup s []).1.game.currentPlayer = otherPlayer s.game.currentPlayer ∧
    (handleSetup s []).1.moveHistory = s.moveHistory ∧
    (handleSetup s []).2 = [OutMsg.update (handleSetup s []).1.game] ∧
    (∀ (t : Srv) (ps : List String), t.game.pieces t.game.currentPlayer = [] →
        ∀ m : String, OutMsg.errorMsg m ∉ (handleSetup t ps).2) := by
  obtain ⟨⟨bd, pa, pb, cur⟩, hist⟩ := s
  cases cur with
  | A =>
    simp only [GameState.pieces] at hempty
    subst hempty
    refine ⟨?_, ?_, ?_, ?_, ?_, ?_, fun t ps h m => handleSetup_no_error t ps h m⟩ <;>
      simp [handleSetup, GameState.pieces, setPieces, otherPlayer, placePieces]
  | B =>
    simp only [GameState.pieces] at hempty
    subst hempty
    refine ⟨?_, ?_, ?_, ?_, ?_, ?_, fun t ps h m => handleSetup_no_error t ps h m⟩ <;>
      simp [handleSetup, GameState.pieces, setPieces, otherPlayer, placePieces]

/-- Witness for C9: an empty setup on the initial state flips the turn
to B and leaves both rosters empty. -/
theorem empty_setup_accepted_witness :
    (handleSetup initializeGame []).1.game.currentPlayer = Player.B ∧
    (handleSetup initializeGame []).1.game.piecesA = [] ∧
    (handleSetup initializeGame []).1.game.piecesB = [] := by
  have h := empty_setup_accepted initializeGame rfl
  exact ⟨h.2.2.2.1, h.2.1, h.2.2.1⟩

theorem capturePiece_currentPlayer (gs : GameState) (x y : Nat) :
    (capturePiece gs x y).currentPlayer = gs.currentPlayer := by
  unfold capturePiece
  split
  · rfl
  · split <;> rfl

theorem capturePieceZ_currentPlayer (gs : GameState) (x y : Int) :
    (capturePieceZ gs x y).currentPlayer = gs.currentPlayer := by
  unfold capturePieceZ
  split
  · exact capturePiece_currentPlayer _ _ _
  · rfl

theorem heroCaptureAt_currentPlayer (gs : GameState) (nx ny : Int) :
    (heroCaptureAt gs nx ny).currentPlayer = gs.currentPlayer := by
  unfold heroCaptureAt
  split
  · split
    · exact capturePieceZ_currentPlayer _ _ _
    · rfl
  · rfl

theorem movePawn_currentPlayer (gs : GameState) (fromPos toPos : Int × Int) :
    (movePawn gs fromPos toPos).2.currentPlayer = gs.currentPlayer := by
  unfold movePawn
  split
  · rfl
  · exact capturePieceZ_currentPlayer _ _ _

theorem moveHero1_currentPlayer (gs : GameState) (fromPos toPos : Int × Int) :
    (moveHero1 gs fromPos toPos).2.currentPlayer = gs.currentPlayer := by
  unfold moveHero1
  dsimp only
  split
  · rfl
  · split
    · rfl
    · split
      · exact heroCaptureAt_currentPlayer _ _ _
      · show (heroCaptureAt (heroCaptureAt gs _ _) _ _).currentPlayer = gs.currentPlayer
        rw [heroCaptureAt_currentPlayer, heroCaptureAt_currentPlayer]

theorem moveHero2_currentPlayer (gs : GameState) (fromPos toPos : Int × Int) :
    (moveHero2 gs fromPos toPos).2.currentPlayer = gs.currentPlayer := by
  unfold moveHero2
  dsimp only
  split
  · rfl
  · split
    · rfl
    · split
      · exact heroCaptureAt_currentPlayer _ _ _
      · show (heroCaptureAt (heroCaptureAt gs _ _) _ _).currentPlayer = gs.currentPlayer
        rw [heroCaptureAt_currentPlayer, heroCaptureAt_currentPlayer]

/-- The tail of processMove: on success the state carries the move
result and the appended log, and exactly the move-history broadcast is
emitted; on failure the log is untouched and nothing is emitted. -/
theorem finishMove_spec (s : Srv) (player : Player) (nm mv : String)
    (mr : Bool × GameState) (b : Bool) (s1 : Srv) (outs : List OutMsg)
    (h : finishMove s player nm mv mr = (b, s1, outs)) :
    s1.game.currentPlayer = mr.2.currentPlayer ∧
    (b = true → outs = [OutMsg.moveHistoryMsg s1.moveHistory]) ∧
    (b = false → outs = []) := by
  unfold finishMove at h
  split at h
  · simp only [Prod.mk.injEq] at h
    obtain ⟨hb, hs, ho⟩ := h
    subst hb
    subst hs
    subst ho
    exact ⟨rfl, fun _ => rfl, fun hf => Bool.noConfusion hf⟩
  · simp only [Prod.mk.injEq] at h
    obtain ⟨hb, hs, ho⟩ := h
    subst hb
    subst hs
    subst ho
    exact ⟨rfl, fun ht => Bool.noConfusion ht, fun _ => rfl⟩

/-- processMove never touches currentPlayer; a successful move emits
exactly the move-history broadcast, a failed one emits nothing. -/
theorem processMove_spec (s : Srv) (player : Player) (character move : String)
    (b : Bool) (s1 : Srv) (outs : List OutMsg)
    (h : processMove s player character move = some (b, s1, outs)) :
    s1.game.currentPlayer = s.game.currentPlayer ∧
    (b = true → outs = [OutMsg.moveHistoryMsg s1.moveHistory]) ∧
    (b = false → outs = []) := by
  unfold processMove at h
  dsimp only at h
  split at h
  · simp only [Option.some.injEq, Prod.mk.injEq] at h
    obtain ⟨hb, hs, ho⟩ := h
    subst hb
    subst hs
    subst ho
    exact ⟨rfl, fun ht => Bool.noConfusion ht, fun _ => rfl⟩
  · split at h
    · exact Option.noConfusion h
    · split at h
      · simp only [Option.some.injEq, Prod.mk.injEq] at h
        obtain ⟨hb, hs, ho⟩ := h
        subst hb
        subst hs
        subst ho
        exact ⟨rfl, fun ht => Bool.noConfusion ht, fun _ => rfl⟩
      · split at h
        · exact Option.noConfusion h
        · split at h
          · simp only [Option.some.injEq, Prod.mk.injEq] at h
            obtain ⟨hb, hs, ho⟩ := h
            subst hb
            subst hs
            subst ho
            exact ⟨rfl, fun ht => Bool.noConfusion ht, fun _ => rfl⟩
          · split at h
            · have h' := Option.some.inj h
              have hf := finishMove_spec _ _ _ _ _ _ _ _ h'
              exact ⟨hf.1.trans (movePawn_currentPlayer _ _ _), hf.2⟩
            · split at h
              · have h' := Option.some.inj h
                have hf := finishMove_spec _ _ _ _ _ _ _ _ h'
                refine ⟨hf.1.trans ?_, hf.2⟩
                split
                · exact moveHero1_currentPlayer _ _ _
                · exact moveHero2_currentPlayer _ _ _
              · simp only [Option.some.injEq, Prod.mk.injEq] at h
                obtain ⟨hb, hs, ho⟩ := h
                subst hb
                subst hs
                subst ho
                exact ⟨rfl, fun ht => Bool.noConfusion ht, fun _ => rfl⟩

/-- C5 (amended): when an accepted move leaves a roster empty, the
engine broadcasts the move history, then the end event naming the
player with the non-empty roster, and reinitializes to the fresh SETUP
state — the end event is the final message, with no update broadcast
after it. -/
theorem win_reinitializes_no_update (s : Srv) (character move : String) (piece : Piece)
    (s1 : Srv) (outs : List OutMsg)
    (hfind : findPiece s.game s.game.currentPlayer character = some piece)
    (hproc : processMove s s.game.currentPlayer character move = some (true, s1, outs))
    (hend : (s1.game.piecesA.isEmpty || s1.game.piecesB.isEmpty) = true) :
    handleMove s character move =
      some (initializeGame,
        [OutMsg.moveHistoryMsg s1.moveHistory,
         OutMsg.endMsg (if s1.game.piecesA.isEmpty then Player.B else Player.A)]) := by
  have houts : outs = [OutMsg.moveHistoryMsg s1.moveHistory] :=
    (processMove_spec s s.game.currentPlayer character move true s1 outs hproc).2.1 rfl
  subst houts
  simp only [handleMove, hfind, hproc, hend, Bool.not_true, Bool.false_eq_true, if_false,
    if_true, List.singleton_append]

/-- Witness for C5: A's hero captures B's last piece; the reply is the
move-history broadcast, then the end event for A, and the state is the
fresh initial one. -/
theorem win_reinitializes_no_update_witness :
    handleMove winState "A-H1" "F" =
      some (initializeGame,
        [OutMsg.moveHistoryMsg ["A-H1: F"], OutMsg.endMsg Player.A]) := by
  exact win_reinitializes_no_update winState "A-H1" "F"
    { name := "H1", row := 0, col := 0 } _ _ rfl rfl rfl

/-- Counterexample for C5 as stated: in the same win the end event is
the last message emitted — it is not followed by an update broadcast
carrying the reset state. -/
theorem end_event_is_last_message_cex :
    handleMove winState "A-H1" "F" =
      some (initializeGame,
        [OutMsg.moveHistoryMsg ["A-H1: F"], OutMsg.endMsg Player.A]) ∧
    List.getLast? [OutMsg.moveHistoryMsg ["A-H1: F"], OutMsg.endMsg Player.A]
      = some (OutMsg.endMsg Player.A) := by
  exact ⟨rfl, rfl⟩

/-- C6 (amended, part that holds): when no piece in the acting player's
roster bears the name part of the submitted label, the move is rejected
with "Invalid character." and the state is returned unchanged. -/
theorem unknown_character_rejected (s : Srv) (character move : String)
    (h : findPiece s.game s.game.currentPlayer character = none) :
    handleMove s character move = some (s, [OutMsg.errorMsg "Invalid character."]) := by
  simp only [handleMove, h]

/-- Witness for C6: on the initial state (empty rosters) any move
command is rejected with "Invalid character.". -/
theorem unknown_character_rejected_witness :
    handleMove initializeGame "A-P1" "F"
      = some (initializeGame, [OutMsg.errorMsg "Invalid character."]) :=
  unknown_character_rejected initializeGame "A-P1" "F" rfl

/-- Counterexample for C6 as stated: with both players owning a piece
named P1 and A to move, A's command naming B's exact board label B-P1
is accepted (logged, turn flipped) and acts on B's piece: B's cell
(4,0) is mutated while A's own pawn stays at (0,0). -/
theorem opponent_label_moves_enemy_piece_cex :
    (handleMove opponentLabelState "B-P1" "B").isSome = true ∧
    opponentLabelResult.1.moveHistory = ["A-P1: B"] ∧
    opponentLabelResult.1.game.currentPlayer = Player.B ∧
    opponentLabelResult.1.game.board 4 0 = none ∧
    opponentLabelState.game.board 4 0 = some "B-P1" ∧
    opponentLabelResult.1.game.board 0 0 = some "A-P1" := by
  decide

/-- C8 (amended): a rejected command — one answered with an error
message — never changes currentPlayer. -/
theorem rejected_command_preserves_currentPlayer (s : Srv) (c : Cmd) (s' : Srv)
    (outs : List OutMsg) (hstep : stepCmd s c = some (s', outs))
    (herr : ∃ m, OutMsg.errorMsg m ∈ outs) :
    s'.game.currentPlayer = s.game.currentPlayer := by
  obtain ⟨m, hm⟩ := herr
  cases c with
  | reset =>
    simp only [stepCmd, resetGame, Option.some.injEq, Prod.mk.injEq] at hstep
    obtain ⟨hs, ho⟩ := hstep
    subst hs
    subst ho
    exact absurd (List.mem_singleton.mp hm) (fun hx => OutMsg.noConfusion hx)
  | setup ps =>
    simp only [stepCmd, Option.some.injEq] at hstep
    unfold handleSetup at hstep
    dsimp only at hstep
    split at hstep
    · simp only [Prod.mk.injEq] at hstep
      obtain ⟨hs, ho⟩ := hstep
      subst hs
      rfl
    · simp only [Prod.mk.injEq] at hstep
      obtain ⟨hs, ho⟩ := hstep
      subst ho
      exact absurd (List.mem_singleton.mp hm) (fun hx => OutMsg.noConfusion hx)
  | move ch mv =>
    simp only [stepCmd] at hstep
    cases hfp : findPiece s.game s.game.currentPlayer ch with
    | none =>
      simp only [handleMove, hfp, Option.some.injEq, Prod.mk.injEq] at hstep
      obtain ⟨hs, ho⟩ := hstep
      subst hs
      rfl
    | some pc =>
      cases hp : processMove s s.game.currentPlayer ch mv with
      | none =>
        simp only [handleMove, hfp, hp] at hstep
        exact Option.noConfusion hstep
      | some trip =>
        obtain ⟨vm, s1, outs1⟩ := trip
        have hcur := (processMove_spec s s.game.currentPlayer ch mv vm s1 outs1 hp).1
        have htrue := (processMove_spec s s.game.currentPlayer ch mv vm s1 outs1 hp).2.1
        simp only [handleMove, hfp, hp] at hstep
        cases vm with
        | false =>
          simp only [Bool.not_false, if_true, Option.some.injEq, Prod.mk.injEq] at hstep
          obtain ⟨hs, ho⟩ := hstep
          subst hs
          exact hcur
        | true =>
          have houts1 := htrue rfl
          subst houts1
          simp only [Bool.not_true, Bool.false_eq_true, if_false] at hstep
          by_cases hgo : (s1.game.piecesA.isEmpty || s1.game.piecesB.isEmpty) = true
          · rw [if_pos hgo] at hstep
            simp only [Option.some.injEq, Prod.mk.injEq] at hstep
            obtain ⟨hs, ho⟩ := hstep
            subst ho
            simp at hm
          · rw [if_neg hgo] at hstep
            simp only [Option.some.injEq, Prod.mk.injEq] at hstep
            obtain ⟨hs, ho⟩ := hstep
            subst ho
            simp at hm

/-- Witness for C8: the hero move rejected at the board edge leaves
currentPlayer unchanged (even though it mutates the rosters). -/
theorem rejected_command_preserves_currentPlayer_witness :
    ((stepCmd heroEdgeState (Cmd.move "A-H1" "F")).getD
        (initializeGame, [])).1.game.currentPlayer
      = heroEdgeState.game.currentPlayer := by
  exact rejected_command_preserves_currentPlayer heroEdgeState (Cmd.move "A-H1" "F") _ _
    rfl ⟨"Invalid move.", List.Mem.head _⟩

/-- Counterexample for C8 as stated: a reset command also changes
currentPlayer.  After A's setup it is B's turn; reset is neither a
setup nor a move command, yet it sets currentPlayer back to A. -/
theorem reset_changes_currentPlayer_cex :
    ¬ currentPlayerOnlyChangesOnSetupOrMove := by
  intro h
  rcases h demoSetupA.1 Cmd.reset initializeGame [OutMsg.update initGameState] rfl with
    heq | ⟨ps, hps⟩ | ⟨ch, mv, hmv⟩
  · exact absurd heq (by decide)
  · exact Cmd.noConfusion hps
  · exact Cmd.noConfusion hmv

end ChessLike
